import Mathlib

set_option maxRecDepth 8000

/-!
Shallow embedding of the `deb` package's `ar(1)` archive reader
(`src/deb/ar.go`): the header decoder `parseArEntry`, the numeric field
helper `toDecimal` (via `goAtoi`), the magic validator `checkAr` /
`LoadAr`, and the cursor advance `Ar.Next`.

Bytes are modelled as `Nat` (values 0..255), Go strings as byte lists,
Go `int64` as `Int`.  Go errors created by `fmt.Errorf` are distinct
values; they are modelled by the constructors of `GoErr`, each doc
commented with the Go message it stands for.  The byte source
(`io.ReaderAt`) is modelled as a function from buffer length and offset
to a `ReadResult`; `bytesReadAt` instantiates it with the semantics of
`bytes.Reader.ReadAt` (a conforming reader: a short read comes with
`io.EOF`).
-/

namespace Deb

/-- Errors produced or propagated by the Go code.  `eof` models `io.EOF`
(the end-of-archive signal); `srcError` stands for any other error of the
underlying byte source; the remaining constructors model the distinct
`fmt.Errorf` values created in `ar.go`. -/
inductive GoErr where
  | eof
  | srcError
  /-- `"Malformed file entry line length"` from `parseArEntry`. -/
  | malformedLength
  /-- `"Malformed file entry line endings"` from `parseArEntry`. -/
  | malformedLineEndings
  /-- `"Caught a short read at the end"` from `Ar.Next`. -/
  | shortRead
  /-- `"Header doesn't look right!"` from `checkAr`. -/
  | badMagic
  /-- `"failed to parse entry <field>: ..."` from `parseArEntry`. -/
  | failedToParse (field : Nat)
  deriving DecidableEq, Repr

/-- Field labels used in the `"failed to parse entry %s"` message, in the
order the map literal lists them in `parseArEntry`. -/
def timestampField : Nat := 0

/-- Field label for `OwnerID`. -/
def ownerIDField : Nat := 1

/-- Field label for `GroupID`. -/
def groupIDField : Nat := 2

/-- Field label for `Size`. -/
def sizeField : Nat := 3

/-- Is this error one of the format errors of the spec's taxonomy (a
`fmt.Errorf` value of this package), as opposed to the end-of-data signal
`io.EOF` or another source error? -/
def GoErr.isFormatError : GoErr → Bool
  | GoErr.eof => false
  | GoErr.srcError => false
  | _ => true

/-- Result of one `io.ReaderAt.ReadAt` call: the byte count actually
read, the contents of the destination buffer after the call (bytes read
followed by the zero bytes `make` initialised), and the returned error. -/
structure ReadResult where
  count : Nat
  line : List Nat
  err : Option GoErr
  deriving Repr

/-- A byte source: given the destination buffer length and the read
offset, produce the result of `ReadAt`. -/
abbrev ReaderAt := Nat → Int → ReadResult

/-- `bytes.Reader.ReadAt` semantics over an in-memory byte list: negative
offset is an error; offset past the end yields `(0, io.EOF)`; otherwise
the available bytes are copied and `io.EOF` accompanies any short read. -/
def bytesReadAt (data : List Nat) : ReaderAt := fun bufLen off =>
  if off < 0 then
    { count := 0, line := List.replicate bufLen 0, err := some GoErr.srcError }
  else if (data.length : Int) ≤ off then
    { count := 0, line := List.replicate bufLen 0, err := some GoErr.eof }
  else
    { count := min bufLen (data.length - off.toNat),
      line := (data.drop off.toNat).take (min bufLen (data.length - off.toNat)) ++
        List.replicate (bufLen - min bufLen (data.length - off.toNat)) 0,
      err := if min bufLen (data.length - off.toNat) < bufLen then some GoErr.eof else none }

/-- Go's `unicode.IsSpace` on the ASCII range, the whitespace that
`strings.TrimSpace` strips from the ASCII header fields: space, `\t`,
`\n`, `\v`, `\f`, `\r`.  (Multi-byte UTF-8 whitespace cannot occur in the
fixed ASCII fields of an `ar` header.) -/
def isGoSpace (b : Nat) : Bool := b == 32 || (9 ≤ b && b ≤ 13)

/-- `strings.TrimSpace` on a byte list. -/
def trimSpace (l : List Nat) : List Nat :=
  ((l.dropWhile isGoSpace).reverse.dropWhile isGoSpace).reverse

/-- `strings.TrimSuffix(s, "/")`: drop one trailing `/` (byte 47) if
present. -/
def trimSuffixSlash (l : List Nat) : List Nat :=
  if l.getLast? = some 47 then l.dropLast else l

/-- The half-open byte range `[a, b)` of a list, modelling Go's
`line[a:b]`. -/
def seg (l : List Nat) (a b : Nat) : List Nat := (l.drop a).take (b - a)

/-- ASCII decimal digit. -/
def isDigit (b : Nat) : Bool := 48 ≤ b && b ≤ 57

/-- Value of a digit string; `none` if any byte is not a digit.  (On the
empty list it yields `some 0`; callers require nonemptiness.) -/
def digitsVal (l : List Nat) : Option Nat :=
  l.foldl
    (fun acc b =>
      match acc with
      | none => none
      | some n => if isDigit b then some (n * 10 + (b - 48)) else none)
    (some 0)

/-- `strconv.Atoi` on a byte list (64-bit platform): an optional sign
followed by at least one ASCII digit, rejected on any other byte and on
values outside the `int64` range. -/
def goAtoi (s : List Nat) : Option Int :=
  match s with
  | [] => none
  | b :: rest =>
    if b = 45 then
      match rest, digitsVal rest with
      | _ :: _, some n => if n ≤ 2 ^ 63 then some (-(n : Int)) else none
      | _, _ => none
    else if b = 43 then
      match rest, digitsVal rest with
      | _ :: _, some n => if n ≤ 2 ^ 63 - 1 then some ((n : Int)) else none
      | _, _ => none
    else
      match digitsVal s with
      | some n => if n ≤ 2 ^ 63 - 1 then some ((n : Int)) else none
      | none => none

/-- Go's `%` on `int64`: remainder of truncated division, magnitude
`|a| % |b|` with the sign of the dividend. -/
def goRem (a b : Int) : Int :=
  if a < 0 then -(((a.natAbs % b.natAbs : Nat)) : Int)
  else ((a.natAbs % b.natAbs : Nat) : Int)

/-- The `ArEntry` struct.  `Name` and `FileMode` are Go strings (byte
lists); the `Data` section reader is modelled by the pair
`(dataOff, dataLen)` it captures, left `0` by the decoder (Go `nil`) and
filled in by `Ar.Next`. -/
structure ArEntry where
  Name : List Nat
  Timestamp : Int
  OwnerID : Int
  GroupID : Int
  FileMode : List Nat
  Size : Int
  dataOff : Int
  dataLen : Int
  deriving DecidableEq, Repr

/-- The cursor: `ar.go`'s `Ar` struct holds the byte source and the
current offset; the source is passed explicitly to `arNext`, so only the
offset is state. -/
structure Ar where
  offset : Int
  deriving DecidableEq, Repr

/-- One numeric field of the header, as the loop body of `parseArEntry`
computes it: trim, keep the zero default on an empty field, otherwise
`toDecimal` (i.e. `strconv.Atoi`), failing with the
`"failed to parse entry <field>"` error. -/
def fieldValE (f : Nat) (raw : List Nat) : Except GoErr Int :=
  if trimSpace raw = [] then Except.ok 0
  else
    match goAtoi (trimSpace raw) with
    | some v => Except.ok v
    | none => Except.error (GoErr.failedToParse f)

/-- `parseArEntry` from `ar.go`: length check, the terminator check as
written in the source (`line[58] != 0x60 && line[59] != 0x0A` — note the
conjunction), name and file-mode trimming, then the four numeric fields.
The Go loop ranges over a map whose iteration order is unspecified; the
embedding fixes the order of the map literal (Timestamp, OwnerID,
GroupID, Size), which is observable only when several fields fail. -/
def parseArEntry (line : List Nat) : Except GoErr ArEntry :=
  if line.length ≠ 60 then Except.error GoErr.malformedLength
  else if line.getD 58 0 ≠ 96 ∧ line.getD 59 0 ≠ 10 then
    Except.error GoErr.malformedLineEndings
  else
    match fieldValE timestampField (seg line 16 28) with
    | Except.error e => Except.error e
    | Except.ok ts =>
      match fieldValE ownerIDField (seg line 28 34) with
      | Except.error e => Except.error e
      | Except.ok ow =>
        match fieldValE groupIDField (seg line 34 40) with
        | Except.error e => Except.error e
        | Except.ok gr =>
          match fieldValE sizeField (seg line 48 58) with
          | Except.error e => Except.error e
          | Except.ok sz =>
            Except.ok
              { Name := trimSuffixSlash (trimSpace (seg line 0 16)),
                Timestamp := ts, OwnerID := ow, GroupID := gr,
                FileMode := trimSpace (seg line 40 48),
                Size := sz, dataOff := 0, dataLen := 0 }

/-- The archive magic `"!<arch>\n"`. -/
def magicBytes : List Nat := [33, 60, 97, 114, 99, 104, 62, 10]

/-- `checkAr` from `ar.go`: read 8 bytes at offset 0, propagate any read
error, compare the buffer against the magic, return the consumed length
8. -/
def checkAr (readAt : ReaderAt) : Except GoErr Int :=
  match (readAt 8 0).err with
  | some e => Except.error e
  | none =>
    if (readAt 8 0).line ≠ magicBytes then Except.error GoErr.badMagic
    else Except.ok 8

/-- `LoadAr` from `ar.go`: run `checkAr` and build the cursor at the
returned offset. -/
def loadAr (readAt : ReaderAt) : Except GoErr Ar :=
  match checkAr readAt with
  | Except.error e => Except.error e
  | Except.ok off => Except.ok { offset := off }

/-- `Ar.Next` from `ar.go`: read 60 bytes at the current offset,
propagate a read error, treat a lone newline byte as `io.EOF`, any other
count ≠ 60 as the short-read error, decode the header, attach the
section-reader range `(offset + count, Size)` and advance the offset by
`count + Size + Size % 2` (Go remainder).  The Go source reads once into
`line`; the embedding's repeated `readAt 60 d.offset` denotes that single
pure result. -/
def arNext (readAt : ReaderAt) (d : Ar) : (Except GoErr ArEntry) × Ar :=
  match (readAt 60 d.offset).err with
  | some e => (Except.error e, d)
  | none =>
    if (readAt 60 d.offset).count = 1 ∧ (readAt 60 d.offset).line.getD 0 0 = 10 then
      (Except.error GoErr.eof, d)
    else if (readAt 60 d.offset).count ≠ 60 then
      (Except.error GoErr.shortRead, d)
    else
      match parseArEntry (readAt 60 d.offset).line with
      | Except.error e => (Except.error e, d)
      | Except.ok entry =>
        (Except.ok
            { entry with
              dataOff := d.offset + ((readAt 60 d.offset).count : Int),
              dataLen := entry.Size },
          { offset := d.offset + ((readAt 60 d.offset).count : Int) +
              entry.Size + goRem entry.Size 2 })

/-! ### Concrete test data (headers and archives used as witnesses and
counterexamples) -/

/-- ASCII character list to byte list. -/
def asciiBytes (s : List Char) : List Nat := s.map Char.toNat

/-- Right-pad a field with ASCII spaces to width `n`. -/
def padTo (l : List Nat) (n : Nat) : List Nat := l ++ List.replicate (n - l.length) 32

/-- Assemble a 60-byte `ar` header from its six fields plus the
`0x60 0x0A` terminator. -/
def mkHeader (name ts ow gr mode size : List Nat) : List Nat :=
  padTo name 16 ++ padTo ts 12 ++ padTo ow 6 ++ padTo gr 6 ++
    padTo mode 8 ++ padTo size 10 ++ [96, 10]

/-- Header naming `foo`, size 3, all numeric fields blank. -/
def fooHeader : List Nat :=
  mkHeader (asciiBytes ['f', 'o', 'o']) [] [] [] [] (asciiBytes ['3'])

/-- Header naming `baz`, size 0. -/
def bazHeader : List Nat :=
  mkHeader (asciiBytes ['b', 'a', 'z']) [] [] [] [] (asciiBytes ['0'])

/-- The minimal synthetic archive of the spec's round-trip scenario:
magic, `foo` header, data `bar`, one pad byte, `baz` header. -/
def scenarioData : List Nat :=
  magicBytes ++ fooHeader ++ asciiBytes ['b', 'a', 'r'] ++ [10] ++ bazHeader

/-- The same archive with a trailing blank line. -/
def scenarioDataNl : List Nat := scenarioData ++ [10]

/-- The `foo` member as `arNext` returns it (data range attached). -/
def fooEntry : ArEntry :=
  { Name := asciiBytes ['f', 'o', 'o'], Timestamp := 0, OwnerID := 0,
    GroupID := 0, FileMode := [], Size := 3, dataOff := 68, dataLen := 3 }

/-- The `foo` member as `parseArEntry` returns it (no data range). -/
def fooEntryP : ArEntry := { fooEntry with dataOff := 0, dataLen := 0 }

/-- The `baz` member as `arNext` returns it. -/
def bazEntry : ArEntry :=
  { Name := asciiBytes ['b', 'a', 'z'], Timestamp := 0, OwnerID := 0,
    GroupID := 0, FileMode := [], Size := 0, dataOff := 132, dataLen := 0 }

/-- Header whose size field is the negative decimal `-61`. -/
def negHeader : List Nat :=
  mkHeader (asciiBytes ['n', 'e', 'g']) [] [] [] [] (asciiBytes ['-', '6', '1'])

/-- Archive containing only the negative-size header. -/
def negData : List Nat := magicBytes ++ negHeader

/-- The negative-size member as `parseArEntry` returns it. -/
def negEntryP : ArEntry :=
  { Name := asciiBytes ['n', 'e', 'g'], Timestamp := 0, OwnerID := 0,
    GroupID := 0, FileMode := [], Size := -61, dataOff := 0, dataLen := 0 }

/-- The negative-size member as `arNext` returns it. -/
def negEntry : ArEntry := { negEntryP with dataOff := 68, dataLen := -61 }

/-- A 60-byte header, well-formed except that terminator byte 58 is
`0x41` instead of `0x60` (byte 59 is the correct `0x0A`). -/
def c1Header : List Nat :=
  padTo (asciiBytes ['f', 'o', 'o']) 16 ++ List.replicate 42 32 ++ [65, 10]

/-- The member the decoder produces for `c1Header`. -/
def c1Entry : ArEntry :=
  { Name := asciiBytes ['f', 'o', 'o'], Timestamp := 0, OwnerID := 0,
    GroupID := 0, FileMode := [], Size := 0, dataOff := 0, dataLen := 0 }

/-- A truncated archive: magic followed by only the first 40 bytes of a
header. -/
def truncData : List Nat := magicBytes ++ fooHeader.take 40

/-- A source holding only 4 bytes of the magic. -/
def shortMagicData : List Nat := asciiBytes ['!', '<', 'a', 'r']

/-- 8 bytes that are not the magic (last byte `\r` instead of `\n`). -/
def junkMagicData : List Nat := [33, 60, 97, 114, 99, 104, 62, 13]

/-- Header with blank timestamp, owner 42, group 0, mode `100644`,
size 10. -/
def c6Header : List Nat :=
  mkHeader (asciiBytes ['x']) [] (asciiBytes ['4', '2']) (asciiBytes ['0'])
    (asciiBytes ['1', '0', '0', '6', '4', '4']) (asciiBytes ['1', '0'])

/-- The member decoded from `c6Header`. -/
def c6Entry : ArEntry :=
  { Name := asciiBytes ['x'], Timestamp := 0, OwnerID := 42, GroupID := 0,
    FileMode := asciiBytes ['1', '0', '0', '6', '4', '4'], Size := 10,
    dataOff := 0, dataLen := 0 }

/-- Header whose group-id field `9z` fails decimal parsing (other fields
fine). -/
def c6BadHeader : List Nat :=
  mkHeader (asciiBytes ['x']) (asciiBytes ['7']) []
    (asciiBytes ['9', 'z']) [] (asciiBytes ['4'])

/-- Header whose 16-byte name field is `debian-binary/` followed by two
pad spaces. -/
def dbHeader : List Nat :=
  mkHeader (asciiBytes ['d', 'e', 'b', 'i', 'a', 'n', '-', 'b', 'i', 'n',
    'a', 'r', 'y', '/']) [] [] [] [] []

/-- The member decoded from `dbHeader`. -/
def dbEntry : ArEntry :=
  { Name := asciiBytes ['d', 'e', 'b', 'i', 'a', 'n', '-', 'b', 'i', 'n',
      'a', 'r', 'y'], Timestamp := 0, OwnerID := 0, GroupID := 0,
    FileMode := [], Size := 0, dataOff := 0, dataLen := 0 }

/-- A byte source whose read reports 40 bytes with no error (the
abstract "short yield" the spec's step 3 describes). -/
def reader40 : ReaderAt := fun _ _ =>
  { count := 40, line := List.replicate 60 0, err := none }

/-- A byte source whose read reports exactly 1 byte, a newline, with no
error (the trailing-blank-line terminator case). -/
def readerNl : ReaderAt := fun _ _ =>
  { count := 1, line := 10 :: List.replicate 59 0, err := none }

/-- Modelled from the spec: "`name` is trimmed of surrounding
whitespace, then a single trailing `/` is stripped if present ...; no
other escaping is performed."  Reference decoding of the 16-byte name
field, written from the spec's words, to compare with the source's
computation. -/
def specMemberName (f : List Nat) : List Nat :=
  if (trimSpace f).getLast? = some 47 then (trimSpace f).dropLast
  else trimSpace f

/-! ### Helper lemmas -/

/-- A numeric field the decoder accepts: blank after trimming, or a
decimal `strconv.Atoi` accepts. -/
def fieldOK (raw : List Nat) : Prop :=
  trimSpace raw = [] ∨ (goAtoi (trimSpace raw)).isSome = true

instance (raw : List Nat) : Decidable (fieldOK raw) := by
  unfold fieldOK; infer_instance

/-- The value a numeric field decodes to: 0 when blank, otherwise the
parsed decimal. -/
def fieldVal (raw : List Nat) : Int :=
  if trimSpace raw = [] then 0 else (goAtoi (trimSpace raw)).getD 0

lemma fieldValE_of_ok (f : Nat) (raw : List Nat) (h : fieldOK raw) :
    fieldValE f raw = Except.ok (fieldVal raw) := by
  unfold fieldValE fieldVal
  by_cases h0 : trimSpace raw = []
  · rw [if_pos h0, if_pos h0]
  · rw [if_neg h0, if_neg h0]
    rcases h with h | h
    · exact absurd h h0
    · obtain ⟨v, hv⟩ := Option.isSome_iff_exists.mp h
      rw [hv]
      rfl

lemma fieldValE_of_bad (f : Nat) (raw : List Nat) (h : ¬ fieldOK raw) :
    fieldValE f raw = Except.error (GoErr.failedToParse f) := by
  unfold fieldOK at h
  push_neg at h
  unfold fieldValE
  rw [if_neg h.1]
  cases hg : goAtoi (trimSpace raw) with
  | none => rfl
  | some v => exact absurd (by rw [hg]; rfl) h.2

lemma goAtoi_nonneg (l : List Nat) (v : Int) (hh : l.head? ≠ some 45)
    (hg : goAtoi l = some v) : 0 ≤ v := by
  unfold goAtoi at hg
  split at hg
  · exact absurd hg (by simp)
  · rename_i b rest
    split at hg
    · rename_i hb45
      exact absurd (by simp [hb45]) hh
    · split at hg
      · split at hg
        · split at hg
          · injection hg with hg
            omega
          · exact absurd hg (by simp)
        · exact absurd hg (by simp)
      · split at hg
        · split at hg
          · injection hg with hg
            omega
          · exact absurd hg (by simp)
        · exact absurd hg (by simp)

lemma goRem_nonneg (a : Int) (h : 0 ≤ a) : 0 ≤ goRem a 2 := by
  unfold goRem
  rw [if_neg (not_lt.mpr h)]
  exact Int.natCast_nonneg _

lemma goRem_eq_emod (a : Int) (h : 0 ≤ a) : goRem a 2 = a % 2 := by
  unfold goRem
  rw [if_neg (not_lt.mpr h)]
  obtain ⟨n, rfl⟩ := Int.eq_ofNat_of_zero_le h
  have h2 : (2 : Int).natAbs = 2 := rfl
  simp only [Int.natAbs_ofNat, h2]
  omega

lemma parseArEntry_ok_inv (line : List Nat) (e : ArEntry)
    (h : parseArEntry line = Except.ok e) :
    line.length = 60 ∧
    e.Name = trimSuffixSlash (trimSpace (seg line 0 16)) ∧
    e.FileMode = trimSpace (seg line 40 48) ∧
    fieldValE timestampField (seg line 16 28) = Except.ok e.Timestamp ∧
    fieldValE ownerIDField (seg line 28 34) = Except.ok e.OwnerID ∧
    fieldValE groupIDField (seg line 34 40) = Except.ok e.GroupID ∧
    fieldValE sizeField (seg line 48 58) = Except.ok e.Size ∧
    e.dataOff = 0 ∧ e.dataLen = 0 := by
  unfold parseArEntry at h
  split at h
  · exact absurd h (by simp)
  · rename_i hlen
    split at h
    · exact absurd h (by simp)
    · split at h
      · exact absurd h (by simp)
      · rename_i ts hts
        split at h
        · exact absurd h (by simp)
        · rename_i ow how
          split at h
          · exact absurd h (by simp)
          · rename_i gr hgr
            split at h
            · exact absurd h (by simp)
            · rename_i sz hsz
              injection h with h
              subst h
              exact ⟨not_ne_iff.mp hlen, rfl, rfl, hts, how, hgr, hsz, rfl, rfl⟩

lemma arNext_ok_inv (readAt : ReaderAt) (d : Ar) (e : ArEntry) (d2 : Ar)
    (h : arNext readAt d = (Except.ok e, d2)) :
    (readAt 60 d.offset).err = none ∧
    (readAt 60 d.offset).count = 60 ∧
    ∃ p, parseArEntry (readAt 60 d.offset).line = Except.ok p ∧
      e = { p with dataOff := d.offset + 60, dataLen := p.Size } ∧
      d2.offset = d.offset + 60 + p.Size + goRem p.Size 2 := by
  unfold arNext at h
  split at h
  · simp at h
  · rename_i herr
    split at h
    · simp at h
    · split at h
      · simp at h
      · rename_i hnl hcount
        split at h
        · simp at h
        · rename_i p hp
          have hc : (readAt 60 d.offset).count = 60 := not_ne_iff.mp hcount
          rw [Prod.mk.injEq] at h
          obtain ⟨h1, h2⟩ := h
          injection h1 with h1
          rw [hc] at h1
          subst h2
          refine ⟨herr, hc, p, hp, ?_, ?_⟩
          · rw [← h1]
            norm_num
          · simp only [hc]
            push_cast
            ring

/-! ### Claim theorems -/

/-- C1: the claim says a 60-byte header whose terminator bytes are not
exactly `0x60, 0x0A` always fails decode.  The source checks
`line[58] != 0x60 && line[59] != 0x0A` (conjunction), so a header whose
byte 58 is `0x41` but whose byte 59 is the correct `0x0A` is accepted:
the decoder returns a member instead of the format error. -/
theorem c1_decoder_accepts_bad_terminator :
    parseArEntry c1Header = Except.ok c1Entry ∧
    seg c1Header 58 60 = [65, 10] ∧ (65 : Nat) ≠ 96 :=
  ⟨rfl, rfl, by decide⟩

/-- C3 counterexample: a successfully decoded header whose size field is
`-61` moves the cursor offset backwards, from 8 to 6, so the offset is
not monotonically non-decreasing across successful advances. -/
theorem c3_counterexample_offset_decreases :
    arNext (bytesReadAt negData) (Ar.mk 8) = (Except.ok negEntry, Ar.mk 6) ∧
    (6 : Int) < 8 :=
  ⟨rfl, by decide⟩

/-- C3 (amended): across successful advances whose decoded size is
non-negative, the cursor offset is monotonically non-decreasing. -/
theorem c3_offset_monotone (readAt : ReaderAt) (d : Ar) (e : ArEntry)
    (d2 : Ar) (h : arNext readAt d = (Except.ok e, d2)) (hs : 0 ≤ e.Size) :
    d.offset ≤ d2.offset := by
  obtain ⟨-, -, p, hp, he, hoff⟩ := arNext_ok_inv readAt d e d2 h
  have hesz : e.Size = p.Size := by rw [he]
  rw [hesz] at hs
  have hg := goRem_nonneg p.Size hs
  rw [hoff]
  omega

/-- Witness for `c3_offset_monotone` at the first advance of the
round-trip archive: offset 8 to offset 72. -/
theorem c3_offset_monotone_witness : (Ar.mk 8).offset ≤ (Ar.mk 72).offset :=
  c3_offset_monotone (bytesReadAt scenarioData) (Ar.mk 8) fooEntry (Ar.mk 72)
    rfl (by decide)

/-- C4 counterexample: the decoder accepts the size field `-61`, so a
successfully produced member can carry a negative size. -/
theorem c4_counterexample_negative_size :
    parseArEntry negHeader = Except.ok negEntryP ∧ negEntryP.Size < 0 :=
  ⟨rfl, by decide⟩

/-- C4 (amended): a successfully decoded member whose size field does
not start with a minus sign has a non-negative size (a blank field
decodes to 0), and the advance operation sets the member's data-range
length to exactly that size. -/
theorem c4_size_nonneg_and_drives_range :
    (∀ line e, parseArEntry line = Except.ok e →
      (trimSpace (seg line 48 58)).head? ≠ some 45 → 0 ≤ e.Size) ∧
    (∀ readAt d e d2, arNext readAt d = (Except.ok e, d2) →
      e.dataLen = e.Size) := by
  constructor
  · intro line e h hsign
    obtain ⟨-, -, -, -, -, -, hsz, -, -⟩ := parseArEntry_ok_inv line e h
    unfold fieldValE at hsz
    split at hsz
    · injection hsz with hsz
      omega
    · split at hsz
      · rename_i v hv
        injection hsz with hsz
        have := goAtoi_nonneg (trimSpace (seg line 48 58)) v hsign hv
        omega
      · exact absurd hsz (by simp)
  · intro readAt d e d2 h
    obtain ⟨-, -, p, hp, he, -⟩ := arNext_ok_inv readAt d e d2 h
    rw [he]

/-- Witness for `c4_size_nonneg_and_drives_range` on the `foo` header of
the round-trip archive. -/
theorem c4_size_witness : 0 ≤ fooEntryP.Size ∧ fooEntry.dataLen = fooEntry.Size :=
  ⟨c4_size_nonneg_and_drives_range.1 fooHeader fooEntryP rfl (by decide),
   c4_size_nonneg_and_drives_range.2 (bytesReadAt scenarioData) (Ar.mk 8)
     fooEntry (Ar.mk 72) rfl⟩

/-- C5 counterexample: for the decoded size `-61` (odd, negative) the
cursor advances from 8 to 6, while `60 + size + (size mod 2)` with the
mathematical (Euclidean) remainder would advance it by 0; Go's `%`
yields `-1` for `-61 % 2`. -/
theorem c5_counterexample_negative_odd_size :
    arNext (bytesReadAt negData) (Ar.mk 8) = (Except.ok negEntry, Ar.mk 6) ∧
    Int.emod (-61) 2 = 1 ∧
    (6 : Int) ≠ 8 + 60 + (-61) + Int.emod (-61) 2 :=
  ⟨rfl, by decide, by decide⟩

/-- C5 (amended): for every successful advance whose decoded size is
non-negative, the offset advances by exactly `60 + size + (size mod 2)`
(one pad byte for odd size, none for even), and the member's data range
starts at the pre-advance offset plus 60 with length `size`. -/
theorem c5_offset_advance (readAt : ReaderAt) (d : Ar) (e : ArEntry)
    (d2 : Ar) (h : arNext readAt d = (Except.ok e, d2)) (hs : 0 ≤ e.Size) :
    d2.offset = d.offset + 60 + e.Size + e.Size % 2 ∧
    e.dataOff = d.offset + 60 ∧ e.dataLen = e.Size := by
  obtain ⟨-, -, p, hp, he, hoff⟩ := arNext_ok_inv readAt d e d2 h
  have hesz : e.Size = p.Size := by rw [he]
  refine ⟨?_, by rw [he], by rw [he]⟩
  rw [hoff, hesz, goRem_eq_emod p.Size (hesz ▸ hs)]

/-- Witness for `c5_offset_advance` at the first advance of the
round-trip archive (odd size 3: one pad byte, 8 + 60 + 3 + 1 = 72). -/
theorem c5_offset_advance_witness :
    (Ar.mk 72).offset = (Ar.mk 8).offset + 60 + fooEntry.Size + fooEntry.Size % 2 ∧
    fooEntry.dataOff = (Ar.mk 8).offset + 60 ∧ fooEntry.dataLen = fooEntry.Size :=
  c5_offset_advance (bytesReadAt scenarioData) (Ar.mk 8) fooEntry (Ar.mk 72)
    rfl (by decide)

/-- C9: on the minimal synthetic archive (magic, `foo` of size 3, data
`bar` plus one pad byte, `baz` of size 0), opening yields the cursor at
offset 8, two advances yield the members `foo`/3 and `baz`/0, and a
third advance signals end-of-archive, both without and with a trailing
blank line. -/
theorem c9_round_trip :
    loadAr (bytesReadAt scenarioData) = Except.ok (Ar.mk 8) ∧
    arNext (bytesReadAt scenarioData) (Ar.mk 8) = (Except.ok fooEntry, Ar.mk 72) ∧
    arNext (bytesReadAt scenarioData) (Ar.mk 72) = (Except.ok bazEntry, Ar.mk 132) ∧
    arNext (bytesReadAt scenarioData) (Ar.mk 132) = (Except.error GoErr.eof, Ar.mk 132) ∧
    loadAr (bytesReadAt scenarioDataNl) = Except.ok (Ar.mk 8) ∧
    arNext (bytesReadAt scenarioDataNl) (Ar.mk 8) = (Except.ok fooEntry, Ar.mk 72) ∧
    arNext (bytesReadAt scenarioDataNl) (Ar.mk 72) = (Except.ok bazEntry, Ar.mk 132) ∧
    arNext (bytesReadAt scenarioDataNl) (Ar.mk 132) = (Except.error GoErr.eof, Ar.mk 132) ∧
    fooEntry.Name = asciiBytes ['f', 'o', 'o'] ∧ fooEntry.Size = 3 ∧
    bazEntry.Name = asciiBytes ['b', 'a', 'z'] ∧ bazEntry.Size = 0 :=
  ⟨rfl, rfl, rfl, rfl, rfl, rfl, rfl, rfl, rfl, rfl, rfl, rfl⟩

/-- C10: whenever the advance operation returns an error of any kind,
the cursor state (its offset) is exactly what it was before the call:
the offset is only mutated on the success path. -/
theorem c10_error_leaves_offset_unchanged (readAt : ReaderAt) (d : Ar)
    (e : GoErr) (h : (arNext readAt d).1 = Except.error e) :
    (arNext readAt d).2 = d := by
  rcases hr : arNext readAt d with ⟨res, d2⟩
  rw [hr] at h
  unfold arNext at hr
  split at hr
  · rw [Prod.mk.injEq] at hr
    exact hr.2.symm
  · split at hr
    · rw [Prod.mk.injEq] at hr
      exact hr.2.symm
    · split at hr
      · rw [Prod.mk.injEq] at hr
        exact hr.2.symm
      · split at hr
        · rw [Prod.mk.injEq] at hr
          exact hr.2.symm
        · rw [Prod.mk.injEq] at hr
          rw [← hr.1] at h
          simp at h

/-- Witness for `c10_error_leaves_offset_unchanged` on the truncated
archive: the erroring advance leaves the cursor at offset 8. -/
theorem c10_witness : (arNext (bytesReadAt truncData) (Ar.mk 8)).2 = Ar.mk 8 :=
  c10_error_leaves_offset_unchanged (bytesReadAt truncData) (Ar.mk 8)
    GoErr.eof rfl

/-- C2 counterexample: on the actual truncated archive whose final
header is only 40 bytes (read through the conforming byte source, which
reports the short read together with `io.EOF`), the advance returns the
propagated `io.EOF` — the end-of-archive signal — and not the
short-read format error the claim requires. -/
theorem c2_counterexample_truncated_header :
    truncData.length = 48 ∧
    arNext (bytesReadAt truncData) (Ar.mk 8) = (Except.error GoErr.eof, Ar.mk 8) ∧
    GoErr.eof.isFormatError = false :=
  ⟨rfl, rfl, rfl⟩

/-- C2 (amended): the advance first propagates any error reported by the
read; when the read reports no error, a yield of exactly 1 newline byte
signals end-of-archive (`io.EOF`, distinct from the format errors), and
any other yield that is not exactly 60 bytes fails with the short-read
format error. -/
theorem c2_short_read_behavior (readAt : ReaderAt) (d : Ar) :
    (∀ e, (readAt 60 d.offset).err = some e →
      arNext readAt d = (Except.error e, d)) ∧
    ((readAt 60 d.offset).err = none → (readAt 60 d.offset).count = 1 →
      (readAt 60 d.offset).line.getD 0 0 = 10 →
      arNext readAt d = (Except.error GoErr.eof, d)) ∧
    ((readAt 60 d.offset).err = none →
      ¬((readAt 60 d.offset).count = 1 ∧ (readAt 60 d.offset).line.getD 0 0 = 10) →
      (readAt 60 d.offset).count ≠ 60 →
      arNext readAt d = (Except.error GoErr.shortRead, d)) ∧
    GoErr.eof ≠ GoErr.shortRead ∧ GoErr.shortRead.isFormatError = true := by
  refine ⟨?_, ?_, ?_, by decide, rfl⟩
  · intro e he
    simp only [arNext, he]
  · intro herr h1 h10
    simp only [arNext, herr]
    rw [if_pos ⟨h1, h10⟩]
  · intro herr hnl hc
    simp only [arNext, herr]
    rw [if_neg hnl, if_pos hc]

/-- Witness for `c2_short_read_behavior`: a no-error yield of 40 bytes
hits the short-read format error, and a no-error yield of one newline
byte signals end-of-archive. -/
theorem c2_short_read_witness :
    arNext reader40 (Ar.mk 0) = (Except.error GoErr.shortRead, Ar.mk 0) ∧
    arNext readerNl (Ar.mk 0) = (Except.error GoErr.eof, Ar.mk 0) :=
  ⟨(c2_short_read_behavior reader40 (Ar.mk 0)).2.2.1 rfl (by decide) (by decide),
   (c2_short_read_behavior readerNl (Ar.mk 0)).2.1 rfl rfl rfl⟩

/-- C8 counterexample: on a source holding only 4 bytes, the conforming
reader reports the short read with `io.EOF`; open propagates that error
(no cursor is returned), but it is not a format error as the claim
states. -/
theorem c8_counterexample_short_source :
    shortMagicData.length = 4 ∧
    loadAr (bytesReadAt shortMagicData) = Except.error GoErr.eof ∧
    GoErr.eof.isFormatError = false :=
  ⟨rfl, rfl, rfl⟩

/-- C8 (amended): open reads 8 bytes at offset 0; when the read reports
no error, a buffer equal to `"!<arch>\x0A"` yields a cursor at initial
offset 8 and any other buffer fails with the bad-magic format error;
when the read reports an error (as conforming sources do when fewer than
8 bytes are available) that error is propagated; in every failure case
no cursor is returned. -/
theorem c8_magic_check (readAt : ReaderAt) :
    ((readAt 8 0).err = none → (readAt 8 0).line = magicBytes →
      loadAr readAt = Except.ok (Ar.mk 8)) ∧
    ((readAt 8 0).err = none → (readAt 8 0).line ≠ magicBytes →
      loadAr readAt = Except.error GoErr.badMagic) ∧
    (∀ e, (readAt 8 0).err = some e → loadAr readAt = Except.error e) ∧
    GoErr.badMagic.isFormatError = true := by
  refine ⟨?_, ?_, ?_, rfl⟩
  · intro herr hm
    simp only [loadAr, checkAr, herr]
    rw [if_neg (not_ne_iff.mpr hm)]
  · intro herr hm
    simp only [loadAr, checkAr, herr]
    rw [if_pos hm]
  · intro e he
    simp only [loadAr, checkAr, he]

/-- Witness for `c8_magic_check`: the round-trip archive opens at offset
8, and 8 bytes that are not the magic fail with the bad-magic error. -/
theorem c8_magic_check_witness :
    loadAr (bytesReadAt scenarioData) = Except.ok (Ar.mk 8) ∧
    loadAr (bytesReadAt junkMagicData) = Except.error GoErr.badMagic :=
  ⟨(c8_magic_check (bytesReadAt scenarioData)).1 rfl rfl,
   (c8_magic_check (bytesReadAt junkMagicData)).2.1 rfl (by decide)⟩

/-- C6: in a 60-byte header passing the terminator check, each numeric
field is trimmed of surrounding whitespace; if every field is blank or
parseable the decode succeeds and each field's value is 0 when blank and
the parsed decimal otherwise; a non-empty unparseable field fails the
decode with the format error naming that field (fields are processed in
the source's listing order: Timestamp, OwnerID, GroupID, Size). -/
theorem c6_numeric_fields (line : List Nat) (h60 : line.length = 60)
    (hterm : ¬(line.getD 58 0 ≠ 96 ∧ line.getD 59 0 ≠ 10)) :
    (fieldOK (seg line 16 28) → fieldOK (seg line 28 34) →
      fieldOK (seg line 34 40) → fieldOK (seg line 48 58) →
      parseArEntry line = Except.ok
        { Name := trimSuffixSlash (trimSpace (seg line 0 16)),
          Timestamp := fieldVal (seg line 16 28),
          OwnerID := fieldVal (seg line 28 34),
          GroupID := fieldVal (seg line 34 40),
          FileMode := trimSpace (seg line 40 48),
          Size := fieldVal (seg line 48 58), dataOff := 0, dataLen := 0 }) ∧
    (¬ fieldOK (seg line 16 28) →
      parseArEntry line = Except.error (GoErr.failedToParse timestampField)) ∧
    (fieldOK (seg line 16 28) → ¬ fieldOK (seg line 28 34) →
      parseArEntry line = Except.error (GoErr.failedToParse ownerIDField)) ∧
    (fieldOK (seg line 16 28) → fieldOK (seg line 28 34) →
      ¬ fieldOK (seg line 34 40) →
      parseArEntry line = Except.error (GoErr.failedToParse groupIDField)) ∧
    (fieldOK (seg line 16 28) → fieldOK (seg line 28 34) →
      fieldOK (seg line 34 40) → ¬ fieldOK (seg line 48 58) →
      parseArEntry line = Except.error (GoErr.failedToParse sizeField)) := by
  have hlen : ¬ line.length ≠ 60 := not_ne_iff.mpr h60
  refine ⟨?_, ?_, ?_, ?_, ?_⟩
  · intro h1 h2 h3 h4
    unfold parseArEntry
    rw [if_neg hlen, if_neg hterm, fieldValE_of_ok _ _ h1,
      fieldValE_of_ok _ _ h2, fieldValE_of_ok _ _ h3, fieldValE_of_ok _ _ h4]
  · intro h1
    unfold parseArEntry
    rw [if_neg hlen, if_neg hterm, fieldValE_of_bad _ _ h1]
  · intro h1 h2
    unfold parseArEntry
    rw [if_neg hlen, if_neg hterm, fieldValE_of_ok _ _ h1,
      fieldValE_of_bad _ _ h2]
  · intro h1 h2 h3
    unfold parseArEntry
    rw [if_neg hlen, if_neg hterm, fieldValE_of_ok _ _ h1,
      fieldValE_of_ok _ _ h2, fieldValE_of_bad _ _ h3]
  · intro h1 h2 h3 h4
    unfold parseArEntry
    rw [if_neg hlen, if_neg hterm, fieldValE_of_ok _ _ h1,
      fieldValE_of_ok _ _ h2, fieldValE_of_ok _ _ h3, fieldValE_of_bad _ _ h4]

/-- Witness for `c6_numeric_fields`: a header with a blank timestamp
decodes it to 0 (owner 42, size 10 parsed), and a header whose group-id
field is `9z` fails naming `GroupID`. -/
theorem c6_numeric_fields_witness :
    parseArEntry c6Header = Except.ok c6Entry ∧
    parseArEntry c6BadHeader = Except.error (GoErr.failedToParse groupIDField) := by
  constructor
  · have h := (c6_numeric_fields c6Header (by decide) (by decide)).1
      (by decide) (by decide) (by decide) (by decide)
    rw [h]
    rfl
  · exact (c6_numeric_fields c6BadHeader (by decide) (by decide)).2.2.2.1
      (by decide) (by decide) (by decide)

/-- C7: the decoded member name is exactly the 16-byte name field
trimmed of surrounding whitespace with a single trailing `/` then
stripped if present — the source computation coincides with the
spec-modelled `specMemberName` on every successfully decoded header. -/
theorem c7_name_decoding (line : List Nat) (e : ArEntry)
    (h : parseArEntry line = Except.ok e) :
    e.Name = specMemberName (seg line 0 16) := by
  obtain ⟨-, hname, -, -, -, -, -, -, -⟩ := parseArEntry_ok_inv line e h
  rw [hname]
  unfold specMemberName trimSuffixSlash
  rfl

/-- Witness for `c7_name_decoding`: the name field
`debian-binary/` followed by padding spaces decodes to
`debian-binary`. -/
theorem c7_name_decoding_witness :
    dbEntry.Name = asciiBytes ['d', 'e', 'b', 'i', 'a', 'n', '-', 'b',
      'i', 'n', 'a', 'r', 'y'] := by
  have h := c7_name_decoding dbHeader dbEntry rfl
  rw [h]
  rfl

end Deb
